import Mathlib

/-!
Verification of the audit-case-os synchronization pipeline core.

This file gives a shallow embedding, in Lean 4, of the load-bearing parts of
the `rag-gateway` service: the token-window chunker
(`app/processing/chunker.py`), the plain-text decoder
(`app/processing/extractors.py`), the embedding batcher (`rag/embedder.py`),
the IRIS remote-source client retry behaviour
(`app/integrations/iris_client.py`), and the sync orchestrator
(`app/services/sync_service.py`, `app/api/v1/sync.py`).

Conventions used throughout:
- Python machine integers are modelled as `Nat`/`Int` (Python ints are
  unbounded, so no wrap-around modelling is needed).
- Python functions that may raise are modelled with `Option`/`Except`.
- Python `while` loops are modelled with an explicit fuel parameter; a result
  of `none` for every fuel value means the loop does not terminate.
- External capabilities (the tiktoken tokenizer, the sentence-transformer
  model, sha256, the network, the database driver) are taken as parameters;
  everything the repository itself computes is translated from the source.

The file is organised as definitions first, then the theorems settling the
claims, then concrete witness instantiations.
-/

/-- Python whitespace characters recognised by `str.strip()` (ASCII subset:
space, tab, newline, carriage return, vertical tab, form feed). -/
def isPySpace (c : Char) : Bool :=
  c == ' ' || c == '\t' || c == '\n' || c == '\r' || c == '\x0b' || c == '\x0c'

/-- Truthiness of Python `text.strip()`: `true` exactly when the string has a
non-whitespace character (so `if not text.strip()` is `! stripTruthy text`). -/
def stripTruthy (s : String) : Bool :=
  ! s.data.all isPySpace

namespace Chunker

/-- Python list slicing `l[i:j]` with (possibly negative) `Int` bounds:
negative indices count from the end, and indices are clamped to `[0, len]`. -/
def pySlice (l : List Nat) (i j : Int) : List Nat :=
  let n : Int := l.length
  let norm : Int → Nat := fun k => if k < 0 then ((n + k).toNat) else (min k n).toNat
  (l.take (norm j)).drop (norm i)

/-- Chunker configuration as stored by `DocumentChunker.__init__`
(`chunker.py` lines 23-44): the constructor stores `chunk_size` and
`chunk_overlap` verbatim, with no validation, rejection or clamping. -/
structure Config where
  chunkSize : Nat
  chunkOverlap : Nat
  deriving DecidableEq

/-- Embedding of `DocumentChunker.__init__(chunk_size, chunk_overlap)`:
the two fields are stored exactly as passed (the `encoding_name` handling
only selects the external tokenizer and is not modelled). -/
def DocumentChunker.init (chunkSize chunkOverlap : Nat) : Config :=
  { chunkSize := chunkSize, chunkOverlap := chunkOverlap }

/-- One element of the list returned by `chunk_text`: the decoded chunk is
represented by its token slice (`content`), together with `token_count`,
`chunk_index` and the `start_token`/`end_token` offsets recorded in the
chunk metadata (`chunker.py` lines 107-123). -/
structure ChunkRec where
  content : List Nat
  tokenCount : Nat
  chunkIndex : Nat
  startToken : Int
  endToken : Int
  deriving DecidableEq

/-- Window end for a given window start, `chunker.py` line 98:
`end_idx = min(start_idx + self.chunk_size, total_tokens)`. -/
def endIdx (cfg : Config) (tokens : List Nat) (startIdx : Int) : Int :=
  min (startIdx + (cfg.chunkSize : Int)) ((tokens.length : Int))

/-- The chunk record appended for the window starting at `startIdx`
(`chunker.py` lines 101-123). -/
def mkChunkRec (cfg : Config) (tokens : List Nat) (startIdx : Int) (chunkIndex : Nat) :
    ChunkRec :=
  let e := endIdx cfg tokens startIdx
  let chunkTokens := pySlice tokens startIdx e
  { content := chunkTokens
    tokenCount := chunkTokens.length
    chunkIndex := chunkIndex
    startToken := startIdx
    endToken := e }

/-- The `while start_idx < total_tokens` loop of `chunk_text`
(`chunker.py` lines 96-131), with explicit fuel. Each iteration appends one
chunk, sets `start_idx = end_idx - self.chunk_overlap` (line 126) and breaks
only when the new `start_idx` is `>=` the old `end_idx` (lines 130-131).
`none` means the fuel ran out before the loop finished. -/
def chunkLoop (cfg : Config) (tokens : List Nat) :
    Nat → Int → Nat → Option (List ChunkRec)
  | 0, _, _ => none
  | fuel + 1, startIdx, chunkIndex =>
    if startIdx < (tokens.length : Int) then
      if endIdx cfg tokens startIdx - (cfg.chunkOverlap : Int) ≥ endIdx cfg tokens startIdx
      then some [mkChunkRec cfg tokens startIdx chunkIndex]
      else
        match chunkLoop cfg tokens fuel
            (endIdx cfg tokens startIdx - (cfg.chunkOverlap : Int)) (chunkIndex + 1) with
        | some rest => some (mkChunkRec cfg tokens startIdx chunkIndex :: rest)
        | none => none
    else some []

/-- Embedding of `DocumentChunker.chunk_text` (`chunker.py` lines 63-134).
The input text is represented by its token sequence (tokenization by
tiktoken is external); the guard `if not text or not text.strip()` on
line 82 corresponds to an empty token sequence, for which `[]` is returned
before the loop. -/
def chunkText (cfg : Config) (tokens : List Nat) (fuel : Nat) :
    Option (List ChunkRec) :=
  if tokens = [] then some [] else chunkLoop cfg tokens fuel 0 0

/-- The 1000-token scenario input: tokens `0, …, 999`. -/
def tokens1000 : List Nat := List.range 1000

/-- The default chunker configuration (`chunk_size=512`, `chunk_overlap=128`,
`chunker.py` lines 25-26). -/
def defaultConfig : Config := DocumentChunker.init 512 128

/-- The sync-service chunker configuration (`CHUNK_SIZE=512`,
`CHUNK_OVERLAP=64`, `config.py` lines 69-70). -/
def settingsConfig : Config := DocumentChunker.init 512 64

/-- A 5-token text. -/
def tokens5 : List Nat := List.range 5

/-- A 3-token text. -/
def tokens3 : List Nat := List.range 3

end Chunker

namespace Extractors

/-- UTF-8 continuation byte test: `0x80 ≤ b ≤ 0xBF`. -/
def isCont (b : Nat) : Bool := 128 ≤ b && b < 192

/-- Allowed second byte of a 3-byte UTF-8 sequence with lead byte `b`
(rejecting overlong encodings for `0xE0` and surrogates for `0xED`). -/
def cont2ok (b c : Nat) : Bool :=
  if b == 224 then 160 ≤ c && c ≤ 191
  else if b == 237 then 128 ≤ c && c ≤ 159
  else isCont c

/-- Allowed second byte of a 4-byte UTF-8 sequence with lead byte `b`
(rejecting overlongs for `0xF0` and values above `U+10FFFF` for `0xF4`). -/
def cont3ok (b c : Nat) : Bool :=
  if b == 240 then 144 ≤ c && c ≤ 191
  else if b == 244 then 128 ≤ c && c ≤ 143
  else isCont c

/-- Strict UTF-8 decoding of a byte sequence to code points, as performed by
Python `bytes.decode("utf-8")`: `none` models `UnicodeDecodeError`. -/
def decodeUtf8 : List Nat → Option (List Nat)
  | [] => some []
  | b :: rest =>
    if b < 128 then (decodeUtf8 rest).map (fun cs => b :: cs)
    else if 194 ≤ b && b ≤ 223 then
      match rest with
      | c :: rest2 =>
        if isCont c then
          (decodeUtf8 rest2).map (fun cs => ((b - 192) * 64 + (c - 128)) :: cs)
        else none
      | [] => none
    else if 224 ≤ b && b ≤ 239 then
      match rest with
      | c :: d :: rest2 =>
        if cont2ok b c && isCont d then
          (decodeUtf8 rest2).map
            (fun cs => ((b - 224) * 4096 + (c - 128) * 64 + (d - 128)) :: cs)
        else none
      | _ => none
    else if 240 ≤ b && b ≤ 244 then
      match rest with
      | c :: d :: e :: rest2 =>
        if cont3ok b c && isCont d && isCont e then
          (decodeUtf8 rest2).map
            (fun cs =>
              ((b - 240) * 262144 + (c - 128) * 4096 + (d - 128) * 64 + (e - 128)) :: cs)
        else none
      | _ => none
    else none

/-- Latin-1 (ISO-8859-1) decoding: every byte value `0..255` maps directly to
the code point of the same value, so decoding never fails. -/
def decodeLatin1 (content : List Nat) : List Nat := content

/-- Decoding of one byte under Windows-1252: bytes `0x81, 0x8D, 0x8F, 0x90,
0x9D` are undefined (`none` models `UnicodeDecodeError`), the rest of the
`0x80..0x9F` block maps to the usual punctuation/letter code points, and all
other bytes map to themselves. -/
def cp1252Byte (b : Nat) : Option Nat :=
  if b < 128 || 160 ≤ b then some b
  else if b == 128 then some 8364
  else if b == 130 then some 8218
  else if b == 131 then some 402
  else if b == 132 then some 8222
  else if b == 133 then some 8230
  else if b == 134 then some 8224
  else if b == 135 then some 8225
  else if b == 136 then some 710
  else if b == 137 then some 8240
  else if b == 138 then some 352
  else if b == 139 then some 8249
  else if b == 140 then some 338
  else if b == 142 then some 381
  else if b == 145 then some 8216
  else if b == 146 then some 8217
  else if b == 147 then some 8220
  else if b == 148 then some 8221
  else if b == 149 then some 8226
  else if b == 150 then some 8211
  else if b == 151 then some 8212
  else if b == 152 then some 732
  else if b == 153 then some 8482
  else if b == 154 then some 353
  else if b == 155 then some 8250
  else if b == 156 then some 339
  else if b == 158 then some 382
  else if b == 159 then some 376
  else none

/-- Windows-1252 decoding of a whole byte sequence. -/
def decodeCp1252 (content : List Nat) : Option (List Nat) :=
  content.mapM cp1252Byte

/-- The character encodings tried by `extract_from_txt`. -/
inductive Encoding where
  | utf8
  | latin1
  | cp1252
  | iso8859_1
  deriving DecidableEq

/-- Behaviour of `content.decode(encoding)` for each encoding in the list
(`iso-8859-1` is the same codec as `latin-1`). -/
def codecDecode : Encoding → List Nat → Option (List Nat)
  | .utf8, content => decodeUtf8 content
  | .latin1, content => some (decodeLatin1 content)
  | .cp1252, content => decodeCp1252 content
  | .iso8859_1, content => some (decodeLatin1 content)

/-- The fixed encoding list of `extract_from_txt` (`extractors.py` line 156):
`["utf-8", "latin-1", "cp1252", "iso-8859-1"]`, in order. -/
def encodingList : List Encoding :=
  [Encoding.utf8, Encoding.latin1, Encoding.cp1252, Encoding.iso8859_1]

/-- The decode loop of `extract_from_txt` (`extractors.py` lines 158-164):
return the first successful decoding, raise `TextExtractionError` if every
encoding fails. -/
def tryEncodings : List Encoding → List Nat → Except String (List Nat)
  | [], _ => .error "Failed to decode text file with any supported encoding"
  | e :: rest, content =>
    match codecDecode e content with
    | some s => .ok s
    | none => tryEncodings rest content

/-- Embedding of `TextExtractor.extract_from_txt` (`extractors.py`
lines 141-164), with text represented as a code-point sequence. -/
def extractFromTxt (content : List Nat) : Except String (List Nat) :=
  tryEncodings encodingList content

end Extractors

namespace Embedder

/-- Embedding of `EmbeddingService.embed_single` (`embedder.py` lines 70-90):
an empty or all-whitespace input raises `ValueError("Cannot embed empty
text")`, otherwise the (external) model encodes the text. `enc` is the
opaque single-text encode capability of the loaded model. -/
def embedSingle (enc : String → List Int) (text : String) :
    Except String (List Int) :=
  if !(stripTruthy text) then .error "Cannot embed empty text"
  else .ok (enc text)

/-- The sub-batch slices `valid_texts[i:i+batch_size]` visited by the loop
`for i in range(0, len(valid_texts), self.batch_size)` of `embed_batch`
(`embedder.py` lines 114-115), for a positive batch size. The fuel argument
is instantiated with the list length, which bounds the iteration count. -/
def batchSlicesGo (bs : Nat) : Nat → List String → List (List String)
  | _, [] => []
  | 0, _ :: _ => []
  | fuel + 1, t :: ts =>
    (t :: ts).take bs :: batchSlicesGo bs fuel ((t :: ts).drop bs)

/-- Embedding of `EmbeddingService.embed_batch` (`embedder.py` lines
92-134): an empty input list returns `[]`; empty/whitespace-only texts are
filtered out; the remaining texts are encoded in sub-batches of `bs` and the
resulting vectors concatenated. The (external) model encode call on a batch
is modelled as `map enc` over the batch. -/
def embedBatch (enc : String → List Int) (bs : Nat) (texts : List String) :
    List (List Int) :=
  if texts = [] then []
  else
    let valid := texts.filter stripTruthy
    if valid = [] then []
    else ((batchSlicesGo bs valid.length valid).map (fun b => b.map enc)).flatten

end Embedder

namespace Iris

/-- An HTTP response as seen by the client: status code, text body, the
result of `response.json()` (`none` models a `ValueError` from JSON parsing,
the payload itself is abstracted as a string), and `response.content` raw
bytes. -/
structure HttpResponse where
  statusCode : Nat
  bodyText : String
  jsonData : Option String
  content : List Nat
  deriving DecidableEq

/-- Outcome of one underlying `httpx` call: a response, or a raised
`httpx.NetworkError` / `httpx.TimeoutException`. -/
inductive CallOutcome where
  | success (r : HttpResponse)
  | netError (msg : String)
  | timedOut (msg : String)
  deriving DecidableEq

/-- The error taxonomy surfaced by the client: `IrisNotFoundError`,
`IrisAuthenticationError`, generic `IrisAPIError`, a transient
network/timeout exception escaping the request body, and the
`tenacity.RetryError` raised when `stop_after_attempt` exhausts. -/
inductive IrisErr where
  | notFound (msg : String)
  | auth (msg : String)
  | api (msg : String)
  | transient (msg : String)
  | retryExhausted (last : IrisErr)
  deriving DecidableEq

/-- Classification used by `retry_if_exception_type((httpx.NetworkError,
httpx.TimeoutException))` (`iris_client.py` line 97). -/
def IrisErr.isTransient : IrisErr → Bool
  | .transient _ => true
  | _ => false

/-- One execution of the body of `IrisClient._request` (`iris_client.py`
lines 99-153): 401 maps to `IrisAuthenticationError`, 404 to
`IrisNotFoundError`, any other `>= 400` status to `IrisAPIError` carrying
status and body, JSON parse failure to `IrisAPIError`, and network/timeout
exceptions are re-raised for tenacity to see. The not-found message is
modelled without the interpolated path. -/
def requestOnce (c : CallOutcome) : Except IrisErr String :=
  match c with
  | .netError m => .error (.transient m)
  | .timedOut m => .error (.transient m)
  | .success r =>
    if r.statusCode == 401 then .error (.auth "Invalid or expired API key")
    else if r.statusCode == 404 then .error (.notFound "Resource not found")
    else if 400 ≤ r.statusCode then
      .error (.api ("IRIS API error " ++ toString r.statusCode ++ ": " ++ r.bodyText))
    else
      match r.jsonData with
      | some d => .ok d
      | none => .error (.api "Invalid JSON response from IRIS")

/-- The tenacity retry driver for `_request`
(`@retry(stop=stop_after_attempt(3), ...)`, `iris_client.py` lines 94-98):
`attempt` is the 1-based attempt number, `remaining` the number of retries
still allowed. Only transient errors are retried; when retries are exhausted
tenacity raises `RetryError` wrapping the last attempt. The first component
of the result is the number of attempts actually made. -/
def requestAttempts (upstream : Nat → CallOutcome) :
    Nat → Nat → Nat × Except IrisErr String
  | attempt, 0 =>
    match requestOnce (upstream attempt) with
    | .ok v => (attempt, .ok v)
    | .error e =>
      if e.isTransient then (attempt, .error (.retryExhausted e))
      else (attempt, .error e)
  | attempt, remaining + 1 =>
    match requestOnce (upstream attempt) with
    | .ok v => (attempt, .ok v)
    | .error e =>
      if e.isTransient then requestAttempts upstream (attempt + 1) remaining
      else (attempt, .error e)

/-- `IrisClient._request` including its retry decorator: at most 3 attempts
total (`stop_after_attempt(3)`). -/
def requestWithRetry (upstream : Nat → CallOutcome) : Nat × Except IrisErr String :=
  requestAttempts upstream 1 2

/-- The sleep tenacity inserts after the failed attempt numbered `attempt`,
from `wait_exponential(multiplier=1, min=2, max=10)`:
`1 * 2 ^ attempt` clamped to `[2, 10]`. -/
def backoffDelay (attempt : Nat) : Nat :=
  max 2 (min (2 ^ attempt) 10)

/-- Embedding of `IrisClient.download_evidence` (`iris_client.py` lines
230-284). The method calls `self.client.get` directly — not `_request` — so
it carries no retry decorator and makes exactly one attempt (the first
component of the result). 404 maps to `IrisNotFoundError`; every other
`>= 400` status, and any network or timeout exception, maps to the generic
`IrisAPIError`. -/
def downloadEvidence (evidenceId : Nat) (call : CallOutcome) :
    Nat × Except IrisErr (List Nat) :=
  (1,
    match call with
    | .netError m => .error (.api ("Network error: " ++ m))
    | .timedOut m => .error (.api ("Download timeout: " ++ m))
    | .success r =>
      if r.statusCode == 404 then
        .error (.notFound ("Evidence " ++ toString evidenceId ++ " not found"))
      else if 400 ≤ r.statusCode then
        .error (.api ("Failed to download evidence: HTTP " ++ toString r.statusCode))
      else .ok r.content)

end Iris

namespace SyncCore

/-- An arbitrary Python exception, identified by its message text
(`str(e)`). -/
structure Exc where
  msg : String
  deriving DecidableEq

/-- Case metadata as used by the orchestrator (`case_data.get("case_name")`). -/
structure CaseData where
  caseName : Option String
  deriving DecidableEq

/-- One evidence record from the upstream listing: `id`, optional
`filename`, `file_type` and `file_description`. -/
structure Evidence where
  id : Nat
  filename : Option String
  fileType : Option String
  fileDescription : Option String
  deriving DecidableEq

/-- SyncJob status values (§4.1 of the spec and the string literals used in
`sync_service.py` / `sync.py`). -/
inductive JobStatus where
  | pending
  | running
  | completed
  | completedWithErrors
  | failed
  deriving DecidableEq

/-- Modelled from the spec: the ORM model module `app/db/models.py` is not
part of the sources; per §3 and §6 of the spec a SyncJob row carries an
identifier, case identifier, status, nullable started/completed timestamps,
counters that default to zero, nullable error text and metadata holding the
`force_reindex` flag. Timestamps are abstract clock readings. -/
structure SyncJobRec where
  id : Nat
  caseId : Nat
  status : JobStatus
  startedAt : Option Nat
  completedAt : Option Nat
  documentsSynced : Nat
  chunksCreated : Nat
  errorMessage : Option String
  forceReindex : Bool
  deriving DecidableEq

/-- Modelled from the spec: Document row (§3) with the fields written by
`sync_service.py` lines 150-162 — case id, display name, declared type,
byte size, content hash, and metadata (source evidence id, description,
case name); `storage_path` is always `None` and omitted. -/
structure DocumentRec where
  id : Nat
  caseId : Nat
  documentName : String
  documentType : Option String
  fileSize : Nat
  fileHash : String
  evidenceId : Nat
  fileDescription : Option String
  caseName : Option String
  deriving DecidableEq

/-- Modelled from the spec: Chunk row (§3) with the fields written by
`sync_service.py` lines 182-192. -/
structure ChunkRow where
  documentId : Nat
  caseId : Nat
  chunkIndex : Nat
  content : String
  embedding : List Int
  tokenCount : Nat
  deriving DecidableEq

/-- The persistent store: SyncJob, Document and Chunk tables, with
autoincrement id counters and an abstract clock for `datetime.utcnow()`. -/
structure Db where
  jobs : List SyncJobRec
  documents : List DocumentRec
  chunks : List ChunkRow
  nextJobId : Nat
  nextDocId : Nat
  clock : Nat
  deriving DecidableEq

/-- One chunk dictionary as produced by the chunker for the orchestrator
(`content`, `token_count`, `chunk_index`). -/
structure ChunkData where
  content : String
  tokenCount : Nat
  chunkIndex : Nat
  deriving DecidableEq

/-- The environment of one sync run: the external collaborators of the
orchestrator, fixed for the duration of the run. `getCase`/`listEvidence`/
`download` are the IRIS client calls (an `error` is an exception raised by
the call), `extract` is `extract_text` (an `error` is a
`TextExtractionError`), `chunkText` the chunker, `embedBatch` the embedding
service, and `hashBytes` is `hashlib.sha256(..).hexdigest()`. -/
structure SyncEnv where
  getCase : Except Exc CaseData
  listEvidence : Except Exc (List Evidence)
  download : Nat → Nat → Except Exc (List Nat)
  extract : String → List Nat → Except Exc String
  chunkText : String → List ChunkData
  embedBatch : List String → List (List Int)
  hashBytes : List Nat → String

/-- `filename = evidence.get("filename", f"evidence_{evidence_id}")`
(`sync_service.py` line 121). -/
def evidenceFilename (ev : Evidence) : String :=
  ev.filename.getD ("evidence_" ++ toString ev.id)

/-- `evidence.get('filename', evidence_id)` — the label used by the generic
per-item exception handler (`sync_service.py` line 207), whose fallback is
the bare evidence id. -/
def genericErrorLabel (ev : Evidence) : String :=
  ev.filename.getD (toString ev.id)

/-- Embedding of `SyncService._find_document_by_hash` (`sync_service.py`
lines 239-252): the query filters on `Document.file_hash` only — no case or
filename condition. -/
def findDocByHash (db : Db) (h : String) : Option DocumentRec :=
  db.documents.find? (fun d => d.fileHash == h)

/-- Loop state of the per-evidence loop: the store plus the
`documents_synced`, `chunks_created` and `errors` accumulators
(`sync_service.py` lines 114-116). -/
structure ItemsAcc where
  db : Db
  documentsSynced : Nat
  chunksCreated : Nat
  errors : List String
  deriving DecidableEq

/-- One iteration of the per-evidence loop of `sync_case`
(`sync_service.py` lines 118-208): download, hash, dedup check (skipped
under `force_reindex`), extract (local `TextExtractionError` handler, line
137-142), whitespace check (lines 144-147), then Document/Chunk creation and
counter increments (lines 149-198); the surrounding `except Exception`
(lines 205-208) records a download failure under the
`evidence.get('filename', evidence_id)` label and continues. -/
def processEvidence (env : SyncEnv) (caseId : Nat) (forceReindex : Bool)
    (caseName : Option String) (acc : ItemsAcc) (ev : Evidence) : ItemsAcc :=
  match env.download ev.id caseId with
  | .error e =>
    { acc with errors := acc.errors ++ [genericErrorLabel ev ++ ": " ++ e.msg] }
  | .ok fileContent =>
    let fileHash := env.hashBytes fileContent
    if !forceReindex && (findDocByHash acc.db fileHash).isSome then acc
    else
      match env.extract (evidenceFilename ev) fileContent with
      | .error e =>
        { acc with errors := acc.errors ++ [evidenceFilename ev ++ ": " ++ e.msg] }
      | .ok text =>
        if !(stripTruthy text) then
          { acc with errors := acc.errors ++ [evidenceFilename ev ++ ": " ++ "No text content"] }
        else
          let doc : DocumentRec :=
            { id := acc.db.nextDocId
              caseId := caseId
              documentName := evidenceFilename ev
              documentType := ev.fileType
              fileSize := fileContent.length
              fileHash := fileHash
              evidenceId := ev.id
              fileDescription := ev.fileDescription
              caseName := caseName }
          let chunksData := env.chunkText text
          let embeddings := env.embedBatch (chunksData.map (fun c => c.content))
          let newChunks := (chunksData.zip embeddings).map (fun p =>
            { documentId := doc.id
              caseId := caseId
              chunkIndex := p.1.chunkIndex
              content := p.1.content
              embedding := p.2
              tokenCount := p.1.tokenCount : ChunkRow })
          { db := { acc.db with
                      documents := acc.db.documents ++ [doc]
                      chunks := acc.db.chunks ++ newChunks
                      nextDocId := acc.db.nextDocId + 1 }
            documentsSynced := acc.documentsSynced + 1
            chunksCreated := acc.chunksCreated + chunksData.length
            errors := acc.errors }

/-- The whole per-evidence loop, in listing order. -/
def runItems (env : SyncEnv) (caseId : Nat) (forceReindex : Bool)
    (caseName : Option String) (acc : ItemsAcc) (evs : List Evidence) : ItemsAcc :=
  evs.foldl (processEvidence env caseId forceReindex caseName) acc

/-- An UPDATE of the job row with identifier `jid`. -/
def updateJob (db : Db) (jid : Nat) (f : SyncJobRec → SyncJobRec) : Db :=
  { db with jobs := db.jobs.map (fun j => if j.id == jid then f j else j) }

/-- The SyncJob row created at the start of `sync_case` (`sync_service.py`
lines 85-90): status `running`, `started_at = now`, metadata holding
`force_reindex`, counters at their zero defaults. -/
def startJob (caseId : Nat) (forceReindex : Bool) (db0 : Db) : SyncJobRec :=
  { id := db0.nextJobId
    caseId := caseId
    status := JobStatus.running
    startedAt := some db0.clock
    completedAt := none
    documentsSynced := 0
    chunksCreated := 0
    errorMessage := none
    forceReindex := forceReindex }

/-- The store after the initial `add`/`commit` of the running job. -/
def addStartJob (caseId : Nat) (forceReindex : Bool) (db0 : Db) : Db :=
  { db0 with
      jobs := db0.jobs ++ [startJob caseId forceReindex db0]
      nextJobId := db0.nextJobId + 1
      clock := db0.clock + 1 }

/-- The accumulator the per-evidence loop starts from. -/
def initialAcc (caseId : Nat) (forceReindex : Bool) (db0 : Db) : ItemsAcc :=
  { db := addStartJob caseId forceReindex db0
    documentsSynced := 0
    chunksCreated := 0
    errors := [] }

/-- Embedding of `SyncService.sync_case` (`sync_service.py` lines 64-237):
create the running job; fetch case and evidence list (an exception here
falls to the outer handler, which marks the job `failed` with the
exception's message and re-raises); finalize immediately on an empty list;
otherwise run the per-evidence loop and finalize with `completed` or
`completed_with_errors` and the newline-joined error list. The returned pair
is the final store and either the returned job row or the re-raised
exception. -/
def syncCase (env : SyncEnv) (caseId : Nat) (forceReindex : Bool) (db0 : Db) :
    Db × Except Exc SyncJobRec :=
  let job := startJob caseId forceReindex db0
  let db1 := addStartJob caseId forceReindex db0
  match env.getCase with
  | .error e =>
    let failedJob := fun (j : SyncJobRec) =>
      { j with status := JobStatus.failed, completedAt := some db1.clock,
               errorMessage := some e.msg }
    (updateJob db1 job.id failedJob, .error e)
  | .ok caseData =>
    match env.listEvidence with
    | .error e =>
      let failedJob := fun (j : SyncJobRec) =>
        { j with status := JobStatus.failed, completedAt := some db1.clock,
                 errorMessage := some e.msg }
      (updateJob db1 job.id failedJob, .error e)
    | .ok evidences =>
      if evidences.isEmpty then
        let fin := fun (j : SyncJobRec) =>
          { j with status := JobStatus.completed, completedAt := some db1.clock,
                   documentsSynced := 0, chunksCreated := 0 }
        (updateJob db1 job.id fin, .ok (fin job))
      else
        let acc := runItems env caseId forceReindex caseData.caseName
          (initialAcc caseId forceReindex db0) evidences
        let fin := fun (j : SyncJobRec) =>
          { j with
              status := if acc.errors.isEmpty then JobStatus.completed
                        else JobStatus.completedWithErrors
              completedAt := some acc.db.clock
              documentsSynced := acc.documentsSynced
              chunksCreated := acc.chunksCreated
              errorMessage := if acc.errors.isEmpty then none
                              else some (String.intercalate "\n" acc.errors) }
        (updateJob acc.db job.id fin, .ok (fin job))

/-- The SyncJob row created by the trigger endpoint (`sync.py` lines
172-176): status `pending`, no timestamps, counters at their zero
defaults, metadata holding `force_reindex`. -/
def pendingJob (caseId : Nat) (forceReindex : Bool) (db0 : Db) : SyncJobRec :=
  { id := db0.nextJobId
    caseId := caseId
    status := JobStatus.pending
    startedAt := none
    completedAt := none
    documentsSynced := 0
    chunksCreated := 0
    errorMessage := none
    forceReindex := forceReindex }

/-- The store after the endpoint committed the pending job. -/
def afterTrigger (caseId : Nat) (forceReindex : Bool) (db0 : Db) : Db :=
  { db0 with
      jobs := db0.jobs ++ [pendingJob caseId forceReindex db0]
      nextJobId := db0.nextJobId + 1 }

/-- Embedding of the trigger endpoint (`sync.py` lines 131-212): verify the
case exists upstream (an IRIS error maps to an HTTP error response, modelled
as the propagated exception), create a SyncJob row with status `pending`,
commit, schedule the background task, and return the pending row's id. -/
def triggerSync (env : SyncEnv) (caseId : Nat) (forceReindex : Bool) (db0 : Db) :
    Db × Except Exc Nat :=
  match env.getCase with
  | .error e => (db0, .error e)
  | .ok _ =>
    (afterTrigger caseId forceReindex db0, .ok (pendingJob caseId forceReindex db0).id)

/-- Embedding of `run_sync_task` (`sync.py` lines 92-128): run `sync_case`
with its own session and swallow any exception (lines 122-127). -/
def runSyncTask (env : SyncEnv) (caseId : Nat) (forceReindex : Bool) (db : Db) : Db :=
  (syncCase env caseId forceReindex db).1

/-- A SELECT of the job row with identifier `jid`. -/
def lookupJob (db : Db) (jid : Nat) : Option SyncJobRec :=
  db.jobs.find? (fun j => j.id == jid)

/-- An evidence item that would be fully processed if it is not a duplicate:
its download succeeds and extraction yields non-whitespace text. -/
def processable (env : SyncEnv) (caseId : Nat) (ev : Evidence) : Prop :=
  ∃ bytes text, env.download ev.id caseId = .ok bytes ∧
    env.extract (evidenceFilename ev) bytes = .ok text ∧ stripTruthy text = true

/-- Well-formedness of the store: every job id is below the autoincrement
counter (as guaranteed by a primary-key sequence). -/
def JobIdsFresh (db : Db) : Prop :=
  ∀ j ∈ db.jobs, j.id < db.nextJobId

/-- Concrete fixture: a text evidence item. -/
def evA : Evidence :=
  { id := 1, filename := some "notes.txt", fileType := some "text/plain",
    fileDescription := none }

/-- Concrete fixture: a binary evidence item whose extraction fails. -/
def evB : Evidence :=
  { id := 2, filename := some "dump.bin", fileType := none,
    fileDescription := none }

/-- Concrete fixture: the case record used by the witness runs. -/
def caseA : CaseData := { caseName := some "Case Alpha" }

/-- Concrete fixture environment: two evidence items, the first extractable,
the second failing extraction with an unsupported-type error. -/
def envA : SyncEnv :=
  { getCase := .ok caseA
    listEvidence := .ok [evA, evB]
    download := fun eid _ => if eid == 1 then .ok [104, 105] else .ok [0, 1, 2]
    extract := fun _ bytes =>
      if bytes == [104, 105] then .ok "hi there"
      else .error { msg := "Unsupported file type: application/octet-stream" }
    chunkText := fun t => [{ content := t, tokenCount := 2, chunkIndex := 0 }]
    embedBatch := fun ts => ts.map (fun _ => [1, 0])
    hashBytes := fun bytes => "sha" ++ toString bytes.length }

/-- Concrete fixture environment whose evidence listing raises. -/
def envFailList : SyncEnv :=
  { envA with listEvidence := .error { msg := "connection refused by IRIS" } }

/-- Concrete fixture: an empty store. -/
def dbEmpty : Db :=
  { jobs := [], documents := [], chunks := [], nextJobId := 1, nextDocId := 1,
    clock := 0 }

end SyncCore

/-! ## Theorems: chunker (claims C1, C2, C7) -/

namespace Chunker

/-- A loop state `s` that maps back to itself (the recomputed next start
equals `s`) while the loop guard still holds is never left: the loop returns
`none` for every fuel value. -/
theorem chunkLoop_fixpoint (cfg : Config) (tokens : List Nat) (s : Int)
    (hs : s < (tokens.length : Int))
    (hfix : endIdx cfg tokens s - (cfg.chunkOverlap : Int) = s)
    (hC : 0 < cfg.chunkSize) :
    ∀ fuel idx, chunkLoop cfg tokens fuel s idx = none := by
  intro fuel
  induction fuel with
  | zero => intro idx; rfl
  | succ n ih =>
    intro idx
    have hend : s < endIdx cfg tokens s := by
      have h1 : s < s + (cfg.chunkSize : Int) := by
        have : (0 : Int) < (cfg.chunkSize : Int) := by exact_mod_cast hC
        omega
      exact lt_min h1 hs
    show chunkLoop cfg tokens (n + 1) s idx = none
    rw [chunkLoop, if_pos hs, if_neg (by rw [hfix]; exact not_le.mpr hend), hfix,
      ih (idx + 1)]

theorem tokens1000_length : ((tokens1000.length : Int)) = 1000 := by
  simp [tokens1000]

theorem chunkLoop_1000_stuck :
    ∀ fuel idx, chunkLoop defaultConfig tokens1000 fuel 872 idx = none := by
  apply chunkLoop_fixpoint
  · rw [tokens1000_length]; norm_num
  · rw [endIdx, tokens1000_length]; rfl
  · norm_num [defaultConfig, DocumentChunker.init]

/-- C1: on a 1000-token text with `chunk_size=512` and `overlap=128`,
`chunk_text` never returns: after emitting the windows `[0,512)`,
`[384,896)` and `[768,1000)` the next start is `1000 - 128 = 872`, which is
still `< 1000`, so the window `[872,1000)` is re-emitted forever (the break
guard `start_idx >= end_idx` can only fire when the overlap is zero). The
loop returns `none` at every fuel, refuting the claimed 3-chunk result. -/
theorem chunkText_scenarioC_diverges :
    ∀ fuel, chunkText defaultConfig tokens1000 fuel = none := by
  intro fuel
  have htok : tokens1000 ≠ [] := by simp [tokens1000]
  rw [chunkText, if_neg htok]
  match fuel with
  | 0 => rfl
  | 1 =>
    rw [chunkLoop, if_pos (by rw [tokens1000_length]; norm_num),
      if_neg (by rw [endIdx, tokens1000_length]; norm_num [defaultConfig, DocumentChunker.init])]
    have h0 : endIdx defaultConfig tokens1000 0 - ((defaultConfig.chunkOverlap : Int))
        = 384 := by rw [endIdx, tokens1000_length]; rfl
    rw [h0]; rfl
  | 2 =>
    rw [chunkLoop, if_pos (by rw [tokens1000_length]; norm_num),
      if_neg (by rw [endIdx, tokens1000_length]; norm_num [defaultConfig, DocumentChunker.init])]
    have h0 : endIdx defaultConfig tokens1000 0 - ((defaultConfig.chunkOverlap : Int))
        = 384 := by rw [endIdx, tokens1000_length]; rfl
    rw [h0, chunkLoop, if_pos (by rw [tokens1000_length]; norm_num),
      if_neg (by rw [endIdx, tokens1000_length]; norm_num [defaultConfig, DocumentChunker.init])]
    have h1 : endIdx defaultConfig tokens1000 384 - ((defaultConfig.chunkOverlap : Int))
        = 768 := by rw [endIdx, tokens1000_length]; rfl
    rw [h1]; rfl
  | (n + 3) =>
    rw [chunkLoop, if_pos (by rw [tokens1000_length]; norm_num),
      if_neg (by rw [endIdx, tokens1000_length]; norm_num [defaultConfig, DocumentChunker.init])]
    have h0 : endIdx defaultConfig tokens1000 0 - ((defaultConfig.chunkOverlap : Int))
        = 384 := by rw [endIdx, tokens1000_length]; rfl
    rw [h0, chunkLoop, if_pos (by rw [tokens1000_length]; norm_num),
      if_neg (by rw [endIdx, tokens1000_length]; norm_num [defaultConfig, DocumentChunker.init])]
    have h1 : endIdx defaultConfig tokens1000 384 - ((defaultConfig.chunkOverlap : Int))
        = 768 := by rw [endIdx, tokens1000_length]; rfl
    rw [h1, chunkLoop, if_pos (by rw [tokens1000_length]; norm_num),
      if_neg (by rw [endIdx, tokens1000_length]; norm_num [defaultConfig, DocumentChunker.init])]
    have h2 : endIdx defaultConfig tokens1000 768 - ((defaultConfig.chunkOverlap : Int))
        = 872 := by rw [endIdx, tokens1000_length]; rfl
    rw [h2, chunkLoop_1000_stuck]

theorem tokens5_length : ((tokens5.length : Int)) = 5 := by
  simp [tokens5]

/-- C2: `chunk_text` does not terminate even on a tiny valid input with the
production configuration (`0 ≤ 64 < 512`): on a 5-token text the first
window is `[0,5)` and the next start is `5 - 64 = -59 < 5`, so the loop
guard holds again; the recomputed window end is again `5`, so the start
stays `-59` forever. The break guard `start_idx >= end_idx` never fires
because `end_idx - overlap < end_idx` whenever the overlap is positive. -/
theorem chunkText_default_config_nonterminating :
    ∀ fuel, chunkText settingsConfig tokens5 fuel = none := by
  intro fuel
  have htok : tokens5 ≠ [] := by simp [tokens5]
  have hstuck : ∀ n idx, chunkLoop settingsConfig tokens5 n (-59) idx = none := by
    apply chunkLoop_fixpoint
    · rw [tokens5_length]; norm_num
    · rw [endIdx, tokens5_length]; rfl
    · norm_num [settingsConfig, DocumentChunker.init]
  rw [chunkText, if_neg htok]
  match fuel with
  | 0 => rfl
  | (n + 1) =>
    rw [chunkLoop, if_pos (by rw [tokens5_length]; norm_num),
      if_neg (by rw [endIdx, tokens5_length]; norm_num [settingsConfig, DocumentChunker.init])]
    have h0 : endIdx settingsConfig tokens5 0 - ((settingsConfig.chunkOverlap : Int))
        = -59 := by rw [endIdx, tokens5_length]; rfl
    rw [h0, hstuck]

theorem tokens3_length : ((tokens3.length : Int)) = 3 := by
  simp [tokens3]

/-- C7: the chunker does not enforce `overlap < chunk_size` by construction:
the constructor stores `chunk_size=2, chunk_overlap=2` verbatim (neither
rejected nor clamped), and `chunk_text` then loops forever on a 3-token
text — the first window is `[0,2)` and the next start is `2 - 2 = 0`, which
is neither `≥ end_idx` (so the guard on lines 130-131, whose comment claims
to avoid exactly this, does not break) nor `≥ total_tokens`, so the same
window repeats forever. -/
theorem chunker_overlap_ge_size_not_rejected :
    DocumentChunker.init 2 2 = { chunkSize := 2, chunkOverlap := 2 } ∧
      ∀ fuel, chunkText (DocumentChunker.init 2 2) tokens3 fuel = none := by
  refine ⟨rfl, ?_⟩
  intro fuel
  have htok : tokens3 ≠ [] := by simp [tokens3]
  have hstuck : ∀ n idx,
      chunkLoop (DocumentChunker.init 2 2) tokens3 n 0 idx = none := by
    apply chunkLoop_fixpoint
    · rw [tokens3_length]; norm_num
    · rw [endIdx, tokens3_length]; rfl
    · norm_num [DocumentChunker.init]
  rw [chunkText, if_neg htok, hstuck]

end Chunker

/-! ## Theorems: plain-text extraction (claim C10) -/

namespace Extractors

/-- C10: `extract_from_txt` is total. Latin-1 decodes every byte sequence,
and it is the second entry of the fixed encoding list, so the decode loop
returns at the UTF-8 attempt or at the Latin-1 attempt; the `cp1252` and
`iso-8859-1` attempts and the final `TextExtractionError` branch are
unreachable. -/
theorem extractFromTxt_total (content : List Nat) :
    extractFromTxt content =
      .ok (match decodeUtf8 content with
           | some s => s
           | none => decodeLatin1 content) := by
  cases h : decodeUtf8 content with
  | some s =>
    simp [extractFromTxt, encodingList, tryEncodings, codecDecode, h]
  | none =>
    simp [extractFromTxt, encodingList, tryEncodings, codecDecode, h]

end Extractors

/-! ## Theorems: embedding service (claim C8) -/

namespace Embedder

theorem batchSlicesGo_flatten (enc : String → List Int) (bs : Nat) (hbs : 0 < bs) :
    ∀ fuel l, l.length ≤ fuel →
      ((batchSlicesGo bs fuel l).map (fun b => b.map enc)).flatten = l.map enc := by
  intro fuel
  induction fuel with
  | zero =>
    intro l hl
    have : l = [] := List.eq_nil_of_length_eq_zero (Nat.le_zero.mp hl)
    subst this
    rfl
  | succ n ih =>
    intro l hl
    match l with
    | [] => rfl
    | t :: ts =>
      have hdrop : ((t :: ts).drop bs).length ≤ n := by
        simp only [List.length_drop, List.length_cons]
        simp only [List.length_cons] at hl
        omega
      calc ((batchSlicesGo bs (n + 1) (t :: ts)).map (fun b => b.map enc)).flatten
          = ((t :: ts).take bs).map enc
              ++ ((batchSlicesGo bs n ((t :: ts).drop bs)).map (fun b => b.map enc)).flatten := by
            rfl
        _ = ((t :: ts).take bs).map enc ++ ((t :: ts).drop bs).map enc := by
            rw [ih _ hdrop]
        _ = (t :: ts).map enc := by
            rw [← List.map_append, List.take_append_drop]

/-- C8 (amended): `embed_batch` returns one vector per *non-whitespace*
input text — it equals the encoding of the filtered list, so its length is
the number of texts whose `strip()` is non-empty, not the length of the
input list; the empty input list yields `[]` without error; and
`embed_single` on an empty or all-whitespace string raises
`ValueError("Cannot embed empty text")`. -/
theorem embedBatch_filters_and_embedSingle_validates
    (enc : String → List Int) (bs : Nat) (texts : List String) (hbs : 0 < bs) :
    embedBatch enc bs texts = (texts.filter stripTruthy).map enc ∧
    (embedBatch enc bs texts).length = (texts.filter stripTruthy).length ∧
    embedBatch enc bs [] = [] ∧
    (∀ t, stripTruthy t = false →
      embedSingle enc t = Except.error "Cannot embed empty text") := by
  have hmain : ∀ ts : List String,
      embedBatch enc bs ts = (ts.filter stripTruthy).map enc := by
    intro ts
    rw [embedBatch]
    by_cases hts : ts = []
    · subst hts; rfl
    · rw [if_neg hts]
      by_cases hv : ts.filter stripTruthy = []
      · simp only [hv, if_pos, List.map_nil]
      · simp only [hv, if_neg, ite_false]
        exact batchSlicesGo_flatten enc bs hbs _ _ le_rfl
  refine ⟨hmain texts, by rw [hmain texts, List.length_map], hmain [], ?_⟩
  intro t ht
  rw [embedSingle, ht]
  rfl

/-- C8 (counterexample): with one non-blank and one whitespace-only text,
`embed_batch` returns a single vector — the output length differs from the
input length, because whitespace texts are filtered before encoding. The
encode capability is instantiated with a concrete constant function. -/
theorem embedBatch_length_counterexample :
    embedBatch (fun _ => [1]) 32 ["a", " "] = [[1]] ∧
      (embedBatch (fun _ => [1]) 32 ["a", " "]).length
        ≠ (["a", " "] : List String).length := by
  constructor
  · rfl
  · intro h
    simp only [List.length_cons, List.length_nil] at h
    have h1 : embedBatch (fun _ => [1]) 32 ["a", " "] = [[1]] := rfl
    rw [h1] at h
    simp at h

end Embedder

/-! ## Theorems: IRIS client retry policy (claim C4) -/

namespace Iris

/-- C4 (counterexample): `download_evidence` against an upstream that fails
with a network error is *not* retried: it makes exactly 1 attempt and
surfaces the failure as the generic `IrisAPIError` ("Network error: ..."),
not as the transient kind after 3 attempts as the claim states for every
client operation. -/
theorem download_transient_not_retried_counterexample :
    downloadEvidence 7 (CallOutcome.netError "connection reset")
      = (1, Except.error (IrisErr.api "Network error: connection reset")) ∧
    downloadEvidence 7 (CallOutcome.netError "connection reset")
      ≠ (3, Except.error (IrisErr.transient "connection reset")) := by
  refine ⟨rfl, ?_⟩
  intro h
  have h1 : (1 : Nat) = 3 := congrArg Prod.fst h
  exact absurd h1 (by decide)

/-- C4 (amended): operations issued through `_request` (case fetch, evidence
listing, health check) retry network/timeout failures up to 3 attempts total
with tenacity's exponential backoff (delays 2s then 4s, clamped to
`[2s, 10s]`); an always-transient upstream exhausts exactly 3 attempts and
surfaces tenacity's retry-exhausted error wrapping the transient failure; a
401 or 404 response is surfaced as the distinct auth / not-found kind after
exactly 1 attempt; a transient failure on attempts 1 and 2 followed by a
success yields the result after 3 attempts. `download_evidence`, by
contrast, always makes exactly 1 attempt: network and timeout failures, and
every non-404 error status including 401, surface as the generic
`IrisAPIError`. -/
theorem iris_retry_and_download_policy :
    (∀ upstream : Nat → CallOutcome,
        (∀ k, ∃ m, upstream k = .netError m ∨ upstream k = .timedOut m) →
        ∃ e, requestWithRetry upstream = (3, .error (.retryExhausted e)) ∧
          e.isTransient = true) ∧
    (∀ upstream r, upstream 1 = .success r → r.statusCode = 401 →
        requestWithRetry upstream = (1, .error (.auth "Invalid or expired API key"))) ∧
    (∀ upstream r, upstream 1 = .success r → r.statusCode = 404 →
        requestWithRetry upstream = (1, .error (.notFound "Resource not found"))) ∧
    (∀ upstream m1 m2 r d, upstream 1 = .netError m1 → upstream 2 = .timedOut m2 →
        upstream 3 = .success r → r.statusCode = 200 → r.jsonData = some d →
        requestWithRetry upstream = (3, .ok d)) ∧
    (backoffDelay 1 = 2 ∧ backoffDelay 2 = 4 ∧
      ∀ n, 2 ≤ backoffDelay n ∧ backoffDelay n ≤ 10) ∧
    (∀ eid call, (downloadEvidence eid call).1 = 1) ∧
    (∀ eid m, (downloadEvidence eid (.netError m)).2
        = .error (.api ("Network error: " ++ m))) ∧
    (∀ eid m, (downloadEvidence eid (.timedOut m)).2
        = .error (.api ("Download timeout: " ++ m))) ∧
    (∀ eid r, r.statusCode = 401 → (downloadEvidence eid (.success r)).2
        = .error (.api "Failed to download evidence: HTTP 401")) := by
  refine ⟨?_, ?_, ?_, ?_, ⟨by decide, by decide, ?_⟩, ?_, ?_, ?_, ?_⟩
  · intro upstream h
    obtain ⟨m1, h1⟩ := h 1
    obtain ⟨m2, h2⟩ := h 2
    obtain ⟨m3, h3⟩ := h 3
    rcases h1 with h1 | h1 <;> rcases h2 with h2 | h2 <;> rcases h3 with h3 | h3 <;>
      exact ⟨.transient m3,
        by simp [requestWithRetry, requestAttempts, requestOnce,
          IrisErr.isTransient, h1, h2, h3], rfl⟩
  · intro upstream r h1 hr
    simp [requestWithRetry, requestAttempts, requestOnce, h1, hr,
      IrisErr.isTransient]
  · intro upstream r h1 hr
    simp [requestWithRetry, requestAttempts, requestOnce, h1, hr,
      IrisErr.isTransient]
  · intro upstream m1 m2 r d h1 h2 h3 hr hd
    simp [requestWithRetry, requestAttempts, requestOnce, h1, h2, h3, hr, hd,
      IrisErr.isTransient]
  · intro n
    constructor
    · exact le_max_left _ _
    · exact max_le (by norm_num) (min_le_right _ _)
  · intro eid call
    cases call <;> rfl
  · intro eid m; rfl
  · intro eid m; rfl
  · intro eid r hr
    simp only [downloadEvidence, hr]
    rfl

end Iris

/-! ## Theorems: sync orchestrator (claims C3, C5, C6, C9) -/

namespace SyncCore

/-- Shape of one loop iteration: it either records exactly one error of the
form `label ++ ": " ++ message` (with the label equal to the filename when
one is present) and changes nothing else, or leaves the state unchanged
(duplicate skip), or succeeds, appending one Document with its Chunks and
bumping the counters — in every case the loop continues. -/
theorem processEvidence_shape (env : SyncEnv) (cid : Nat) (force : Bool)
    (cn : Option String) (acc : ItemsAcc) (ev : Evidence) :
    (∃ p m, processEvidence env cid force cn acc ev
        = { acc with errors := acc.errors ++ [p ++ ": " ++ m] } ∧
        ∀ f, ev.filename = some f → p = f) ∨
    processEvidence env cid force cn acc ev = acc ∨
    (∃ doc newChunks k, processEvidence env cid force cn acc ev =
      { db := { acc.db with
                  documents := acc.db.documents ++ [doc]
                  chunks := acc.db.chunks ++ newChunks
                  nextDocId := acc.db.nextDocId + 1 }
        documentsSynced := acc.documentsSynced + 1
        chunksCreated := acc.chunksCreated + k
        errors := acc.errors }) := by
  rw [processEvidence]
  cases hdl : env.download ev.id cid with
  | error e =>
    exact Or.inl ⟨genericErrorLabel ev, e.msg, rfl,
      fun f hf => by simp [genericErrorLabel, hf]⟩
  | ok fileContent =>
    dsimp only
    by_cases hdup :
        (!force && (findDocByHash acc.db (env.hashBytes fileContent)).isSome) = true
    · rw [if_pos hdup]
      exact Or.inr (Or.inl rfl)
    · rw [if_neg hdup]
      cases hex : env.extract (evidenceFilename ev) fileContent with
      | error e =>
        exact Or.inl ⟨evidenceFilename ev, e.msg, rfl,
          fun f hf => by simp [evidenceFilename, hf]⟩
      | ok text =>
        dsimp only
        by_cases hts : stripTruthy text = true
        · rw [if_neg (by simp [hts])]
          exact Or.inr (Or.inr ⟨_, _, _, rfl⟩)
        · rw [if_pos (by simp [Bool.not_eq_true] at hts; simp [hts])]
          exact Or.inl ⟨evidenceFilename ev, "No text content", rfl,
            fun f hf => by simp [evidenceFilename, hf]⟩

/-- One loop iteration never touches the jobs table, the job id counter or
the clock. -/
theorem processEvidence_db_inv (env : SyncEnv) (cid : Nat) (force : Bool)
    (cn : Option String) (acc : ItemsAcc) (ev : Evidence) :
    (processEvidence env cid force cn acc ev).db.jobs = acc.db.jobs ∧
    (processEvidence env cid force cn acc ev).db.nextJobId = acc.db.nextJobId ∧
    (processEvidence env cid force cn acc ev).db.clock = acc.db.clock := by
  rcases processEvidence_shape env cid force cn acc ev with
    ⟨p, m, h, _⟩ | h | ⟨doc, c, k, h⟩ <;> rw [h] <;> exact ⟨rfl, rfl, rfl⟩

/-- The whole loop never touches the jobs table, the job id counter or the
clock. -/
theorem runItems_db_inv (env : SyncEnv) (cid : Nat) (force : Bool)
    (cn : Option String) :
    ∀ (evs : List Evidence) (acc : ItemsAcc),
      (runItems env cid force cn acc evs).db.jobs = acc.db.jobs ∧
      (runItems env cid force cn acc evs).db.nextJobId = acc.db.nextJobId ∧
      (runItems env cid force cn acc evs).db.clock = acc.db.clock := by
  intro evs
  induction evs with
  | nil => intro acc; exact ⟨rfl, rfl, rfl⟩
  | cons ev evs ih =>
    intro acc
    have hstep := processEvidence_db_inv env cid force cn acc ev
    have hrest := ih (processEvidence env cid force cn acc ev)
    refine ⟨?_, ?_, ?_⟩
    · rw [runItems, List.foldl_cons]
      rw [show ((evs.foldl (processEvidence env cid force cn)
          (processEvidence env cid force cn acc ev)))
          = runItems env cid force cn (processEvidence env cid force cn acc ev) evs
          from rfl]
      rw [hrest.1, hstep.1]
    · rw [runItems, List.foldl_cons]
      rw [show ((evs.foldl (processEvidence env cid force cn)
          (processEvidence env cid force cn acc ev)))
          = runItems env cid force cn (processEvidence env cid force cn acc ev) evs
          from rfl]
      rw [hrest.2.1, hstep.2.1]
    · rw [runItems, List.foldl_cons]
      rw [show ((evs.foldl (processEvidence env cid force cn)
          (processEvidence env cid force cn acc ev)))
          = runItems env cid force cn (processEvidence env cid force cn acc ev) evs
          from rfl]
      rw [hrest.2.2, hstep.2.2]

/-- Mapping an id-preserving conditional update over a job list does not
change what a lookup for a *different* id finds. -/
theorem find?_map_of_ne (l : List SyncJobRec) (key upd : Nat)
    (f : SyncJobRec → SyncJobRec) (hf : ∀ j, (f j).id = j.id) (hne : key ≠ upd) :
    ((l.map (fun j => if j.id == upd then f j else j)).find? (fun j => j.id == key))
      = l.find? (fun j => j.id == key) := by
  induction l with
  | nil => rfl
  | cons a l ih =>
    by_cases ha : a.id = upd
    · simp only [List.map_cons]
      rw [if_pos (by simp [ha])]
      rw [List.find?_cons_of_neg _ (by simp [hf a, ha]; exact fun h => hne h.symm)]
      rw [List.find?_cons_of_neg _ (by simp [ha]; exact fun h => hne h.symm)]
      exact ih
    · simp only [List.map_cons]
      rw [if_neg (by simp [ha])]
      by_cases hk : a.id = key
      · rw [List.find?_cons_of_pos _ (by simp [hk]),
          List.find?_cons_of_pos _ (by simp [hk])]
      · rw [List.find?_cons_of_neg _ (by simp [hk]),
          List.find?_cons_of_neg _ (by simp [hk])]
        exact ih

/-- A fresh-id job appended at the end of the table is found by a lookup for
its id after an update of exactly that id is mapped over the table. -/
theorem find?_map_update (l : List SyncJobRec) (n : Nat) (hl : ∀ j ∈ l, j.id ≠ n)
    (j0 : SyncJobRec) (h0 : j0.id = n) (f : SyncJobRec → SyncJobRec)
    (hf : (f j0).id = n) :
    ((l ++ [j0]).map (fun j => if j.id == n then f j else j)).find?
        (fun j => j.id == n) = some (f j0) := by
  induction l with
  | nil =>
    simp only [List.nil_append, List.map_cons, List.map_nil]
    rw [if_pos (by simp [h0])]
    exact List.find?_cons_of_pos _ (by simp [hf])
  | cons a l ih =>
    have ha : a.id ≠ n := hl a (by simp)
    simp only [List.cons_append, List.map_cons]
    rw [if_neg (by simp [ha])]
    rw [List.find?_cons_of_neg _ (by simp [ha])]
    exact ih (fun j hj => hl j (by simp [hj]))

/-- C6: when the case fetch or the evidence listing raises, `sync_case`
re-raises that exception to the caller and the job row is finalized as
`failed` with `completed_at` set and `error_message` equal to the
exception's message text. -/
theorem syncCase_job_level_failure (env : SyncEnv) (cid : Nat) (force : Bool)
    (db0 : Db) (e : Exc)
    (hfresh : JobIdsFresh db0)
    (h : env.getCase = .error e ∨
         ∃ cd, env.getCase = .ok cd ∧ env.listEvidence = .error e) :
    (syncCase env cid force db0).2 = .error e ∧
    lookupJob (syncCase env cid force db0).1 db0.nextJobId =
      some { id := db0.nextJobId, caseId := cid, status := JobStatus.failed,
             startedAt := some db0.clock, completedAt := some (db0.clock + 1),
             documentsSynced := 0, chunksCreated := 0,
             errorMessage := some e.msg, forceReindex := force } := by
  rcases h with hc | ⟨cd, hc, he⟩
  · rw [syncCase]
    simp only [hc]
    refine ⟨by trivial, ?_⟩
    rw [lookupJob, updateJob, addStartJob]
    exact find?_map_update db0.jobs db0.nextJobId
      (fun j hj => Nat.ne_of_lt (hfresh j hj)) (startJob cid force db0) rfl _ rfl
  · rw [syncCase]
    simp only [hc, he]
    refine ⟨by trivial, ?_⟩
    rw [lookupJob, updateJob, addStartJob]
    exact find?_map_update db0.jobs db0.nextJobId
      (fun j hj => Nat.ne_of_lt (hfresh j hj)) (startJob cid force db0) rfl _ rfl

end SyncCore

namespace SyncCore

/-- Final job row of a run whose case fetch and evidence listing succeed:
the status, error message and counters are determined by the loop result. -/
theorem syncCase_run_result (env : SyncEnv) (cid : Nat) (force : Bool)
    (db0 : Db) (cd : CaseData) (evs : List Evidence)
    (hc : env.getCase = .ok cd) (he : env.listEvidence = .ok evs) :
    ∃ job, (syncCase env cid force db0).2 = .ok job ∧
      job.status =
        (if (runItems env cid force cd.caseName (initialAcc cid force db0) evs).errors.isEmpty
         then JobStatus.completed else JobStatus.completedWithErrors) ∧
      job.errorMessage =
        (if (runItems env cid force cd.caseName (initialAcc cid force db0) evs).errors.isEmpty
         then none
         else some (String.intercalate "\n"
           (runItems env cid force cd.caseName (initialAcc cid force db0) evs).errors)) ∧
      job.completedAt.isSome = true ∧
      job.documentsSynced =
        (runItems env cid force cd.caseName (initialAcc cid force db0) evs).documentsSynced ∧
      job.chunksCreated =
        (runItems env cid force cd.caseName (initialAcc cid force db0) evs).chunksCreated := by
  rw [syncCase]
  simp only [hc, he]
  cases evs with
  | nil => exact ⟨_, rfl, rfl, rfl, rfl, rfl, rfl⟩
  | cons ev rest => exact ⟨_, rfl, rfl, rfl, rfl, rfl, rfl⟩

/-- C3: per-item failure isolation and final status aggregation. Every loop
iteration either records exactly one error entry `label ++ ": " ++ message`
(the label being the item's filename when present) while changing nothing
else, or records no error (duplicate skip or success) — the loop always
continues. After the loop, the returned job has status `completed` exactly
when the recorded error list is empty and `completed_with_errors` otherwise,
`error_message` is the newline-joined error list (absent when empty), the
counters come from the loop, and `completed_at` is set. -/
theorem syncCase_per_item_errors (env : SyncEnv) (cid : Nat) (force : Bool)
    (db0 : Db) (cd : CaseData) (evs : List Evidence)
    (hc : env.getCase = .ok cd) (he : env.listEvidence = .ok evs) :
    (∀ acc ev,
        (∃ p m, processEvidence env cid force cd.caseName acc ev
            = { acc with errors := acc.errors ++ [p ++ ": " ++ m] } ∧
            ∀ f, ev.filename = some f → p = f) ∨
        (processEvidence env cid force cd.caseName acc ev).errors = acc.errors) ∧
    (∃ job, (syncCase env cid force db0).2 = .ok job ∧
      job.status =
        (if (runItems env cid force cd.caseName (initialAcc cid force db0) evs).errors.isEmpty
         then JobStatus.completed else JobStatus.completedWithErrors) ∧
      job.errorMessage =
        (if (runItems env cid force cd.caseName (initialAcc cid force db0) evs).errors.isEmpty
         then none
         else some (String.intercalate "\n"
           (runItems env cid force cd.caseName (initialAcc cid force db0) evs).errors)) ∧
      job.completedAt.isSome = true ∧
      job.documentsSynced =
        (runItems env cid force cd.caseName (initialAcc cid force db0) evs).documentsSynced ∧
      job.chunksCreated =
        (runItems env cid force cd.caseName (initialAcc cid force db0) evs).chunksCreated) := by
  constructor
  · intro acc ev
    rcases processEvidence_shape env cid force cd.caseName acc ev with
      ⟨p, m, h, hp⟩ | h | ⟨doc, c, k, h⟩
    · exact Or.inl ⟨p, m, h, hp⟩
    · exact Or.inr (by rw [h])
    · exact Or.inr (by rw [h])
  · exact syncCase_run_result env cid force db0 cd evs hc he

/-- The final store of a run: the jobs table is the initial table plus the
fresh running job, with an id-preserving finalization update mapped over the
new job's id; documents and chunks come from the loop. -/
theorem syncCase_store_shape (env : SyncEnv) (cid : Nat) (force : Bool) (db : Db) :
    ∃ f : SyncJobRec → SyncJobRec, (∀ j, (f j).id = j.id) ∧
      (syncCase env cid force db).1.jobs
        = ((db.jobs ++ [startJob cid force db]).map
            (fun j => if j.id == db.nextJobId then f j else j)) := by
  rw [syncCase]
  cases hc : env.getCase with
  | error e =>
    simp only [hc]
    exact ⟨fun j =>
      { j with status := JobStatus.failed,
               completedAt := some (addStartJob cid force db).clock,
               errorMessage := some e.msg },
      fun j => rfl, rfl⟩
  | ok cd =>
    cases he : env.listEvidence with
    | error e =>
      simp only [hc, he]
      exact ⟨fun j =>
        { j with status := JobStatus.failed,
                 completedAt := some (addStartJob cid force db).clock,
                 errorMessage := some e.msg },
        fun j => rfl, rfl⟩
    | ok evs =>
      simp only [hc, he]
      cases evs with
      | nil =>
        exact ⟨fun j =>
          { j with status := JobStatus.completed,
                   completedAt := some (addStartJob cid force db).clock,
                   documentsSynced := 0, chunksCreated := 0 },
          fun j => rfl, rfl⟩
      | cons ev rest =>
        refine ⟨fun j =>
          { j with
              status := if (runItems env cid force cd.caseName
                  (initialAcc cid force db) (ev :: rest)).errors.isEmpty
                then JobStatus.completed else JobStatus.completedWithErrors
              completedAt := some (runItems env cid force cd.caseName
                  (initialAcc cid force db) (ev :: rest)).db.clock
              documentsSynced := (runItems env cid force cd.caseName
                  (initialAcc cid force db) (ev :: rest)).documentsSynced
              chunksCreated := (runItems env cid force cd.caseName
                  (initialAcc cid force db) (ev :: rest)).chunksCreated
              errorMessage := if (runItems env cid force cd.caseName
                  (initialAcc cid force db) (ev :: rest)).errors.isEmpty
                then none
                else some (String.intercalate "\n" (runItems env cid force cd.caseName
                  (initialAcc cid force db) (ev :: rest)).errors) },
          fun j => rfl, ?_⟩
        have hjobs := (runItems_db_inv env cid force cd.caseName (ev :: rest)
          (initialAcc cid force db)).1
        show (updateJob (runItems env cid force cd.caseName
            (initialAcc cid force db) (ev :: rest)).db _ _).jobs = _
        rw [updateJob]
        rw [hjobs]
        rfl

/-- The job row returned on the success path is the one created by this run:
its id is the id the run's job was created with. -/
theorem syncCase_ok_id (env : SyncEnv) (cid : Nat) (force : Bool) (db : Db)
    (job : SyncJobRec) (h : (syncCase env cid force db).2 = .ok job) :
    job.id = db.nextJobId := by
  rw [syncCase] at h
  cases hc : env.getCase with
  | error e =>
    rw [hc] at h
    simp at h
  | ok cd =>
    rw [hc] at h
    cases he : env.listEvidence with
    | error e =>
      rw [he] at h
      simp at h
    | ok evs =>
      rw [he] at h
      dsimp only at h
      cases evs with
      | nil =>
        rw [if_pos (by simp : (([] : List Evidence).isEmpty) = true)] at h
        injection h with h2
        rw [← h2]
        rfl
      | cons ev rest =>
        rw [if_neg (by simp : ¬(((ev :: rest).isEmpty) = true))] at h
        injection h with h2
        rw [← h2]
        rfl

/-- C9: the pending SyncJob created by the trigger endpoint is never
mutated afterwards. After the background run finishes, a lookup of the id
that was returned to the caller still yields the untouched `pending` record
with zero counters; the run created a second, distinct job row (one row was
added, and any job returned by `sync_case` has a different id). -/
theorem pending_job_stays_pending (env : SyncEnv) (cid : Nat) (force : Bool)
    (db0 : Db) (cd : CaseData)
    (hfresh : JobIdsFresh db0) (hc : env.getCase = .ok cd) :
    triggerSync env cid force db0 = (afterTrigger cid force db0, .ok db0.nextJobId) ∧
    lookupJob (runSyncTask env cid force (afterTrigger cid force db0)) db0.nextJobId =
      some { id := db0.nextJobId, caseId := cid, status := JobStatus.pending,
             startedAt := none, completedAt := none, documentsSynced := 0,
             chunksCreated := 0, errorMessage := none, forceReindex := force } ∧
    (∀ job, (syncCase env cid force (afterTrigger cid force db0)).2 = .ok job →
      job.id ≠ db0.nextJobId) ∧
    (runSyncTask env cid force (afterTrigger cid force db0)).jobs.length
      = (afterTrigger cid force db0).jobs.length + 1 := by
  obtain ⟨f, hf, hjobs⟩ := syncCase_store_shape env cid force (afterTrigger cid force db0)
  refine ⟨?_, ?_, ?_, ?_⟩
  · rw [triggerSync]
    simp only [hc]
    rfl
  · rw [runSyncTask, lookupJob, hjobs]
    rw [find?_map_of_ne _ _ _ f hf
      (show db0.nextJobId ≠ (afterTrigger cid force db0).nextJobId by
        show db0.nextJobId ≠ db0.nextJobId + 1
        omega)]
    rw [List.find?_append]
    have h1 : (afterTrigger cid force db0).jobs.find? (fun j => j.id == db0.nextJobId)
        = some (pendingJob cid force db0) := by
      show (db0.jobs ++ [pendingJob cid force db0]).find? (fun j => j.id == db0.nextJobId)
        = some (pendingJob cid force db0)
      rw [List.find?_append]
      have h0 : db0.jobs.find? (fun j => j.id == db0.nextJobId) = none :=
        List.find?_eq_none.mpr (fun j hj => by
          simp only [beq_iff_eq]
          exact Nat.ne_of_lt (hfresh j hj))
      rw [h0]
      show ([pendingJob cid force db0].find? (fun j => j.id == db0.nextJobId))
        = some (pendingJob cid force db0)
      rw [List.find?_cons_of_pos _ (by simp [pendingJob])]
    rw [h1]
    rfl
  · intro job h
    rw [syncCase_ok_id env cid force (afterTrigger cid force db0) job h]
    show db0.nextJobId + 1 ≠ db0.nextJobId
    omega
  · rw [runSyncTask, hjobs, List.length_map, List.length_append]
    rfl

end SyncCore

namespace SyncCore

theorem isSome_or_left {α : Type} (x y : Option α) (hx : x.isSome = true) :
    (x.or y).isSome = true := by
  cases x with
  | none => cases hx
  | some a => rfl

theorem processEvidence_docs_mono (env : SyncEnv) (cid : Nat) (force : Bool)
    (cn : Option String) (acc : ItemsAcc) (ev : Evidence) :
    ∃ tail, (processEvidence env cid force cn acc ev).db.documents
      = acc.db.documents ++ tail := by
  rcases processEvidence_shape env cid force cn acc ev with
    ⟨p, m, h, _⟩ | h | ⟨doc, c, k, h⟩
  · exact ⟨[], by rw [h]; simp⟩
  · exact ⟨[], by rw [h]; simp⟩
  · exact ⟨[doc], by rw [h]⟩

theorem processEvidence_hash_mono (env : SyncEnv) (cid : Nat) (force : Bool)
    (cn : Option String) (acc : ItemsAcc) (ev : Evidence) (h : String)
    (hin : (findDocByHash acc.db h).isSome = true) :
    (findDocByHash (processEvidence env cid force cn acc ev).db h).isSome = true := by
  obtain ⟨tail, ht⟩ := processEvidence_docs_mono env cid force cn acc ev
  rw [findDocByHash] at hin ⊢
  rw [ht, List.find?_append]
  exact isSome_or_left _ _ hin

theorem runItems_hash_mono (env : SyncEnv) (cid : Nat) (force : Bool)
    (cn : Option String) :
    ∀ (evs : List Evidence) (acc : ItemsAcc) (h : String),
      (findDocByHash acc.db h).isSome = true →
      (findDocByHash (runItems env cid force cn acc evs).db h).isSome = true := by
  intro evs
  induction evs with
  | nil => intro acc h hin; exact hin
  | cons ev rest ih =>
    intro acc h hin
    rw [runItems, List.foldl_cons]
    exact ih (processEvidence env cid force cn acc ev) h
      (processEvidence_hash_mono env cid force cn acc ev h hin)

/-- After processing an item whose download, extraction and whitespace check
would succeed, its content hash is present in the document store (it either
already was — the duplicate skip — or the item's Document was stored). -/
theorem processEvidence_hash_present (env : SyncEnv) (cid : Nat)
    (cn : Option String) (acc : ItemsAcc) (ev : Evidence)
    (bytes : List Nat) (text : String)
    (hdl : env.download ev.id cid = .ok bytes)
    (hex : env.extract (evidenceFilename ev) bytes = .ok text)
    (hts : stripTruthy text = true) :
    (findDocByHash (processEvidence env cid false cn acc ev).db
      (env.hashBytes bytes)).isSome = true := by
  rw [processEvidence]
  simp only [hdl]
  by_cases hdup :
      (!false && (findDocByHash acc.db (env.hashBytes bytes)).isSome) = true
  · rw [if_pos hdup]
    simpa using hdup
  · rw [if_neg hdup]
    simp only [hex]
    rw [if_neg (by simp [hts])]
    rw [findDocByHash]
    dsimp only
    rw [List.find?_append]
    cases hfst : acc.db.documents.find? (fun d => d.fileHash == env.hashBytes bytes) with
    | some d => rfl
    | none =>
      rw [List.find?_cons_of_pos _ (by simp)]
      rfl

/-- Every item of a completed run whose download/extract/whitespace steps
succeed deterministically has its content hash in the final store. -/
theorem runItems_hash_after (env : SyncEnv) (cid : Nat) (cn : Option String) :
    ∀ (evs : List Evidence) (acc : ItemsAcc) (ev : Evidence), ev ∈ evs →
      ∀ (bytes : List Nat) (text : String), env.download ev.id cid = .ok bytes →
        env.extract (evidenceFilename ev) bytes = .ok text → stripTruthy text = true →
        (findDocByHash (runItems env cid false cn acc evs).db
          (env.hashBytes bytes)).isSome = true := by
  intro evs
  induction evs with
  | nil => intro acc ev hmem; cases hmem
  | cons e0 rest ih =>
    intro acc ev hmem bytes text hdl hex hts
    rw [runItems, List.foldl_cons]
    rcases List.mem_cons.mp hmem with heq | hmem2
    · subst heq
      exact runItems_hash_mono env cid false cn rest
        (processEvidence env cid false cn acc ev) (env.hashBytes bytes)
        (processEvidence_hash_present env cid cn acc ev bytes text hdl hex hts)
    · exact ih (processEvidence env cid false cn acc e0) ev hmem2 bytes text hdl hex hts

/-- A pass over evidence items whose processable items all already have their
hashes in the store changes nothing: no document, no chunk, no counter. -/
theorem runItems_noop (env : SyncEnv) (cid : Nat) (cn : Option String) :
    ∀ (evs : List Evidence) (acc : ItemsAcc),
      (∀ ev ∈ evs, ∀ (bytes : List Nat) (text : String),
        env.download ev.id cid = .ok bytes →
        env.extract (evidenceFilename ev) bytes = .ok text →
        stripTruthy text = true →
        (findDocByHash acc.db (env.hashBytes bytes)).isSome = true) →
      (runItems env cid false cn acc evs).db.documents = acc.db.documents ∧
      (runItems env cid false cn acc evs).db.chunks = acc.db.chunks ∧
      (runItems env cid false cn acc evs).documentsSynced = acc.documentsSynced ∧
      (runItems env cid false cn acc evs).chunksCreated = acc.chunksCreated := by
  intro evs
  induction evs with
  | nil => intro acc _; exact ⟨rfl, rfl, rfl, rfl⟩
  | cons ev rest ih =>
    intro acc hhyp
    have hstep : (processEvidence env cid false cn acc ev).db.documents
          = acc.db.documents ∧
        (processEvidence env cid false cn acc ev).db.chunks = acc.db.chunks ∧
        (processEvidence env cid false cn acc ev).documentsSynced
          = acc.documentsSynced ∧
        (processEvidence env cid false cn acc ev).chunksCreated
          = acc.chunksCreated := by
      rw [processEvidence]
      cases hdl : env.download ev.id cid with
      | error e => exact ⟨rfl, rfl, rfl, rfl⟩
      | ok bytes =>
        dsimp only
        by_cases hdup :
            (!false && (findDocByHash acc.db (env.hashBytes bytes)).isSome) = true
        · rw [if_pos hdup]
          exact ⟨rfl, rfl, rfl, rfl⟩
        · rw [if_neg hdup]
          cases hex : env.extract (evidenceFilename ev) bytes with
          | error e => exact ⟨rfl, rfl, rfl, rfl⟩
          | ok text =>
            dsimp only
            by_cases hts : stripTruthy text = true
            · exact absurd
                (by simpa using hhyp ev (by simp) bytes text hdl hex hts) hdup
            · rw [if_pos (by simp [Bool.not_eq_true] at hts; simp [hts])]
              exact ⟨rfl, rfl, rfl, rfl⟩
    have hrest := ih (processEvidence env cid false cn acc ev)
      (fun ev2 h2 bytes text hdl hex hts => by
        have hbase := hhyp ev2 (List.mem_cons_of_mem _ h2) bytes text hdl hex hts
        rw [findDocByHash] at hbase ⊢
        rw [hstep.1]
        exact hbase)
    refine ⟨?_, ?_, ?_, ?_⟩
    · rw [runItems, List.foldl_cons]
      rw [show (rest.foldl (processEvidence env cid false cn)
          (processEvidence env cid false cn acc ev))
          = runItems env cid false cn (processEvidence env cid false cn acc ev) rest
          from rfl]
      rw [hrest.1, hstep.1]
    · rw [runItems, List.foldl_cons]
      rw [show (rest.foldl (processEvidence env cid false cn)
          (processEvidence env cid false cn acc ev))
          = runItems env cid false cn (processEvidence env cid false cn acc ev) rest
          from rfl]
      rw [hrest.2.1, hstep.2.1]
    · rw [runItems, List.foldl_cons]
      rw [show (rest.foldl (processEvidence env cid false cn)
          (processEvidence env cid false cn acc ev))
          = runItems env cid false cn (processEvidence env cid false cn acc ev) rest
          from rfl]
      rw [hrest.2.2.1, hstep.2.2.1]
    · rw [runItems, List.foldl_cons]
      rw [show (rest.foldl (processEvidence env cid false cn)
          (processEvidence env cid false cn acc ev))
          = runItems env cid false cn (processEvidence env cid false cn acc ev) rest
          from rfl]
      rw [hrest.2.2.2, hstep.2.2.2]

/-- The documents and chunks of the final store come from the loop (the job
table updates do not touch them). -/
theorem syncCase_docs (env : SyncEnv) (cid : Nat) (force : Bool) (db : Db)
    (cd : CaseData) (evs : List Evidence)
    (hc : env.getCase = .ok cd) (he : env.listEvidence = .ok evs) :
    (syncCase env cid force db).1.documents
      = (runItems env cid force cd.caseName (initialAcc cid force db) evs).db.documents ∧
    (syncCase env cid force db).1.chunks
      = (runItems env cid force cd.caseName (initialAcc cid force db) evs).db.chunks := by
  rw [syncCase]
  simp only [hc, he]
  cases evs with
  | nil => exact ⟨rfl, rfl⟩
  | cons ev rest => exact ⟨rfl, rfl⟩

end SyncCore

namespace SyncCore

/-- C5: syncing the same case twice with `force_reindex=false` against a
deterministic upstream (the same environment: byte-identical downloads)
yields `documents_synced = 0` and `chunks_created = 0` on the second run and
leaves the stored Document and Chunk tables unchanged. Moreover,
deduplication keys solely on the digest of the raw bytes: an item whose
bytes hash to a value already present in the store — under *any* case id,
filename or caller case — is skipped with no error recorded, no counter
increment and no store change. -/
theorem syncCase_idempotent_dedup_by_hash (env : SyncEnv) (cid : Nat) (db0 : Db)
    (cd : CaseData) (evs : List Evidence)
    (hc : env.getCase = .ok cd) (he : env.listEvidence = .ok evs) :
    (∃ job2,
      (syncCase env cid false (syncCase env cid false db0).1).2 = .ok job2 ∧
      job2.documentsSynced = 0 ∧ job2.chunksCreated = 0 ∧
      (syncCase env cid false (syncCase env cid false db0).1).1.documents
        = (syncCase env cid false db0).1.documents ∧
      (syncCase env cid false (syncCase env cid false db0).1).1.chunks
        = (syncCase env cid false db0).1.chunks) ∧
    (∀ (cid2 : Nat) (cn : Option String) (acc : ItemsAcc) (ev : Evidence)
        (bytes : List Nat),
      env.download ev.id cid2 = .ok bytes →
      (findDocByHash acc.db (env.hashBytes bytes)).isSome = true →
      processEvidence env cid2 false cn acc ev = acc) := by
  constructor
  · have hdocs1 := syncCase_docs env cid false db0 cd evs hc he
    have hdocs2 := syncCase_docs env cid false (syncCase env cid false db0).1 cd evs hc he
    have hhyp : ∀ ev ∈ evs, ∀ (bytes : List Nat) (text : String),
        env.download ev.id cid = .ok bytes →
        env.extract (evidenceFilename ev) bytes = .ok text →
        stripTruthy text = true →
        (findDocByHash (initialAcc cid false (syncCase env cid false db0).1).db
          (env.hashBytes bytes)).isSome = true := by
      intro ev hmem bytes text hdl hex hts
      have h1 := runItems_hash_after env cid cd.caseName evs
        (initialAcc cid false db0) ev hmem bytes text hdl hex hts
      have hde : (initialAcc cid false (syncCase env cid false db0).1).db.documents
          = (runItems env cid false cd.caseName
              (initialAcc cid false db0) evs).db.documents := by
        show (syncCase env cid false db0).1.documents = _
        exact hdocs1.1
      rw [findDocByHash] at h1 ⊢
      rw [hde]
      exact h1
    have hnoop := runItems_noop env cid cd.caseName evs
      (initialAcc cid false (syncCase env cid false db0).1) hhyp
    obtain ⟨job2, h2ok, _, _, _, hds, hcs⟩ :=
      syncCase_run_result env cid false (syncCase env cid false db0).1 cd evs hc he
    refine ⟨job2, h2ok, ?_, ?_, ?_, ?_⟩
    · rw [hds, hnoop.2.2.1]
      rfl
    · rw [hcs, hnoop.2.2.2]
      rfl
    · rw [hdocs2.1, hnoop.1]
      rfl
    · rw [hdocs2.2, hnoop.2.1]
      rfl
  · intro cid2 cn acc ev bytes hdl hin
    rw [processEvidence]
    simp only [hdl]
    rw [if_pos (by simp [hin])]

end SyncCore

/-! ## Witnesses: concrete instantiations of the hypothesised theorems -/

namespace Iris

/-- Witness for the amended retry policy: an upstream that fails with a
network error on every attempt exhausts exactly 3 attempts. -/
theorem iris_retry_policy_witness :
    (∀ k : Nat, ∃ m,
      (fun _ : Nat => CallOutcome.netError "conn reset") k = CallOutcome.netError m ∨
      (fun _ : Nat => CallOutcome.netError "conn reset") k = CallOutcome.timedOut m) ∧
    (∃ e, requestWithRetry (fun _ => CallOutcome.netError "conn reset")
        = (3, .error (.retryExhausted e)) ∧ e.isTransient = true) :=
  ⟨fun _ => ⟨"conn reset", Or.inl rfl⟩,
    iris_retry_and_download_policy.1 (fun _ => CallOutcome.netError "conn reset")
      (fun _ => ⟨"conn reset", Or.inl rfl⟩)⟩

end Iris

namespace Embedder

/-- Witness for the amended C8 theorem at a concrete batch. -/
theorem embedBatch_filters_witness :
    0 < 32 ∧
    (embedBatch (fun _ => ([1] : List Int)) 32 ["a", " "]
        = ((["a", " "] : List String).filter stripTruthy).map (fun _ => ([1] : List Int)) ∧
      (embedBatch (fun _ => ([1] : List Int)) 32 ["a", " "]).length
        = ((["a", " "] : List String).filter stripTruthy).length ∧
      embedBatch (fun _ => ([1] : List Int)) 32 [] = [] ∧
      (∀ t, stripTruthy t = false →
        embedSingle (fun _ => ([1] : List Int)) t
          = Except.error "Cannot embed empty text")) :=
  ⟨by norm_num,
    embedBatch_filters_and_embedSingle_validates (fun _ => ([1] : List Int)) 32
      ["a", " "] (by norm_num)⟩

end Embedder

namespace SyncCore

/-- Witness for C3 at the concrete two-item environment. -/
theorem syncCase_per_item_errors_witness :
    (envA.getCase = .ok caseA ∧ envA.listEvidence = .ok [evA, evB]) ∧
    ((∀ acc ev,
        (∃ p m, processEvidence envA 5 false caseA.caseName acc ev
            = { acc with errors := acc.errors ++ [p ++ ": " ++ m] } ∧
            ∀ f, ev.filename = some f → p = f) ∨
        (processEvidence envA 5 false caseA.caseName acc ev).errors = acc.errors) ∧
    (∃ job, (syncCase envA 5 false dbEmpty).2 = .ok job ∧
      job.status =
        (if (runItems envA 5 false caseA.caseName
              (initialAcc 5 false dbEmpty) [evA, evB]).errors.isEmpty
         then JobStatus.completed else JobStatus.completedWithErrors) ∧
      job.errorMessage =
        (if (runItems envA 5 false caseA.caseName
              (initialAcc 5 false dbEmpty) [evA, evB]).errors.isEmpty
         then none
         else some (String.intercalate "\n"
           (runItems envA 5 false caseA.caseName
             (initialAcc 5 false dbEmpty) [evA, evB]).errors)) ∧
      job.completedAt.isSome = true ∧
      job.documentsSynced =
        (runItems envA 5 false caseA.caseName
          (initialAcc 5 false dbEmpty) [evA, evB]).documentsSynced ∧
      job.chunksCreated =
        (runItems envA 5 false caseA.caseName
          (initialAcc 5 false dbEmpty) [evA, evB]).chunksCreated)) :=
  ⟨⟨rfl, rfl⟩, syncCase_per_item_errors envA 5 false dbEmpty caseA [evA, evB] rfl rfl⟩

/-- Witness for C6: the evidence listing raises against an empty store. -/
theorem syncCase_job_level_failure_witness :
    (JobIdsFresh dbEmpty ∧
      (envFailList.getCase = .error { msg := "connection refused by IRIS" } ∨
        ∃ cd, envFailList.getCase = .ok cd ∧
          envFailList.listEvidence = .error { msg := "connection refused by IRIS" })) ∧
    ((syncCase envFailList 5 false dbEmpty).2
        = .error { msg := "connection refused by IRIS" } ∧
      lookupJob (syncCase envFailList 5 false dbEmpty).1 dbEmpty.nextJobId =
        some { id := dbEmpty.nextJobId, caseId := 5, status := JobStatus.failed,
               startedAt := some dbEmpty.clock,
               completedAt := some (dbEmpty.clock + 1),
               documentsSynced := 0, chunksCreated := 0,
               errorMessage := some "connection refused by IRIS",
               forceReindex := false }) := by
  have hfr : JobIdsFresh dbEmpty := fun j hj => absurd hj (List.not_mem_nil j)
  have hor : envFailList.getCase = .error { msg := "connection refused by IRIS" } ∨
      ∃ cd, envFailList.getCase = .ok cd ∧
        envFailList.listEvidence = .error { msg := "connection refused by IRIS" } :=
    Or.inr ⟨caseA, rfl, rfl⟩
  exact ⟨⟨hfr, hor⟩,
    syncCase_job_level_failure envFailList 5 false dbEmpty
      { msg := "connection refused by IRIS" } hfr hor⟩

/-- Witness for C9 at the concrete environment and empty store. -/
theorem pending_job_stays_pending_witness :
    (JobIdsFresh dbEmpty ∧ envA.getCase = .ok caseA) ∧
    (triggerSync envA 5 false dbEmpty
        = (afterTrigger 5 false dbEmpty, .ok dbEmpty.nextJobId) ∧
      lookupJob (runSyncTask envA 5 false (afterTrigger 5 false dbEmpty))
          dbEmpty.nextJobId =
        some { id := dbEmpty.nextJobId, caseId := 5, status := JobStatus.pending,
               startedAt := none, completedAt := none, documentsSynced := 0,
               chunksCreated := 0, errorMessage := none, forceReindex := false } ∧
      (∀ job, (syncCase envA 5 false (afterTrigger 5 false dbEmpty)).2 = .ok job →
        job.id ≠ dbEmpty.nextJobId) ∧
      (runSyncTask envA 5 false (afterTrigger 5 false dbEmpty)).jobs.length
        = (afterTrigger 5 false dbEmpty).jobs.length + 1) := by
  have hfr : JobIdsFresh dbEmpty := fun j hj => absurd hj (List.not_mem_nil j)
  exact ⟨⟨hfr, rfl⟩, pending_job_stays_pending envA 5 false dbEmpty caseA hfr rfl⟩

/-- Witness for C5 at the concrete environment and empty store. -/
theorem syncCase_idempotent_witness :
    (envA.getCase = .ok caseA ∧ envA.listEvidence = .ok [evA, evB]) ∧
    ((∃ job2,
      (syncCase envA 5 false (syncCase envA 5 false dbEmpty).1).2 = .ok job2 ∧
      job2.documentsSynced = 0 ∧ job2.chunksCreated = 0 ∧
      (syncCase envA 5 false (syncCase envA 5 false dbEmpty).1).1.documents
        = (syncCase envA 5 false dbEmpty).1.documents ∧
      (syncCase envA 5 false (syncCase envA 5 false dbEmpty).1).1.chunks
        = (syncCase envA 5 false dbEmpty).1.chunks) ∧
    (∀ (cid2 : Nat) (cn : Option String) (acc : ItemsAcc) (ev : Evidence)
        (bytes : List Nat),
      envA.download ev.id cid2 = .ok bytes →
      (findDocByHash acc.db (envA.hashBytes bytes)).isSome = true →
      processEvidence envA cid2 false cn acc ev = acc)) :=
  ⟨⟨rfl, rfl⟩, syncCase_idempotent_dedup_by_hash envA 5 dbEmpty caseA [evA, evB] rfl rfl⟩

end SyncCore
